import Mathlib

/-!
Verification development for the storefront's order lifecycle and pricing
client logic.  The definitions below are shallow embeddings of the
TypeScript source: pure fragments become Lean functions, React state
updates become explicit state-passing functions, and remote fetches become
`Option`-valued inputs (a fetch that failed or found nothing yields
`none`, exactly as `fetchOrderById` catches every error and returns
`null`).  Prices are modelled as exact rationals.
-/

/-- Lifecycle status of an order (`src/types`, used throughout). -/
inductive OrderStatus
  | pending
  | processing
  | approved
  | rejected
deriving DecidableEq, Repr

/-- Account tier of an authenticated member (`Member.user_type`). -/
inductive UserType
  | reseller
  | end_user
deriving DecidableEq, Repr

/-- The slice of `Member` read by the pricing code. -/
structure Member where
  user_type : UserType
deriving DecidableEq, Repr

/-- A purchasable package of a product (`Variation`): base price plus
optional tier-override prices. -/
structure Variation where
  id : String
  name : String
  price : ℚ
  reseller_price : Option ℚ := none
  member_price : Option ℚ := none
deriving DecidableEq, Repr

/-- The slice of `MenuItem` read by the pricing and placement code. -/
structure MenuItem where
  name : String
  isOnDiscount : Bool
  discountPercentage : Option ℚ := none
deriving DecidableEq, Repr

/-- The slice of an `Order` row read by the reconciliation client logic. -/
structure Order where
  id : String
  status : OrderStatus
  updated_at : String := ""
deriving DecidableEq, Repr

/-- `getDiscountedPrice` from `GameItemOrderModal.tsx` (lines 148-159): the
placement flow's effective-unit-price resolution.  An authenticated
reseller takes the variation's reseller override when set; an authenticated
end-user member takes the member override when set; otherwise an active
percentage discount applies to the base price; otherwise the base price is
returned unchanged. -/
def getDiscountedPrice (item : MenuItem) (currentMember : Option Member)
    (basePrice : ℚ) (variation : Option Variation) : ℚ :=
  let memberOverride : Option ℚ :=
    match currentMember, variation with
    | some m, some v =>
      match m.user_type with
      | UserType.reseller => v.reseller_price
      | UserType.end_user => v.member_price
    | _, _ => none
  match memberOverride with
  | some p => p
  | none =>
    match item.isOnDiscount, item.discountPercentage with
    | true, some d => basePrice * (1 - d)
    | _, _ => basePrice

/-- One selected add-on on a line item (`CartItem.selectedAddOns`). -/
structure CartAddOn where
  id : String
  name : String
  quantity : Option Nat := none
deriving DecidableEq, Repr

/-- The slice of a `CartItem` line item read by the placement flow, the
status dialog and the display aggregation utility. -/
structure CartItem where
  name : String
  selectedVariation : Option Variation := none
  selectedAddOns : List CartAddOn := []
  quantity : Nat
  totalPrice : ℚ
deriving DecidableEq, Repr

/-- One account's package pick in multi-account mode
(`userSelections[accIdx]` in `GameItemOrderModal.tsx`). -/
structure UserSelection where
  variation : Variation
  quantity : Nat
deriving DecidableEq, Repr

/-- The object literal pushed per unit by `handlePlaceOrder`
(`GameItemOrderModal.tsx` lines 254-261 and 281-289): quantity 1, the
selected variation, and the resolved unit price as `totalPrice`. -/
def expandedLine (item : MenuItem) (cm : Option Member) (v : Variation) : CartItem :=
  { name := item.name, selectedVariation := some v, selectedAddOns := [],
    quantity := 1,
    totalPrice := getDiscountedPrice item cm v.price (some v) }

/-- Single-account branch of `handlePlaceOrder` (lines 238-262): a
quantity-`N` purchase is expanded into `N` quantity-1 line items. -/
def expandSingleAccount (item : MenuItem) (cm : Option Member)
    (variation : Variation) (quantity : Nat) : List CartItem :=
  List.replicate quantity (expandedLine item cm variation)

/-- Multi-account branch of `handlePlaceOrder` (lines 263-291): each
selection whose account index exists is expanded into quantity-many
quantity-1 line items; selections whose account is missing are skipped
(the `if (!acc || !sel.variation) continue` guard). -/
def expandMultiAccounts (item : MenuItem) (cm : Option Member)
    (numAccounts : Nat) (sels : List (Nat × UserSelection)) : List CartItem :=
  sels.foldl
    (fun acc p =>
      if p.1 < numAccounts then
        acc ++ List.replicate p.2.quantity (expandedLine item cm p.2.variation)
      else acc)
    []

/-- The `totalPrice` memo of `GameItemOrderModal.tsx` (lines 166-176),
single-account case: resolved unit price times quantity.  This value is
submitted as the created order's `total_price`. -/
def orderTotalPriceSingle (item : MenuItem) (cm : Option Member)
    (variation : Variation) (quantity : Nat) : ℚ :=
  getDiscountedPrice item cm variation.price (some variation) * quantity

/-- The `totalPrice` memo, multi-account case: sum over selections of
resolved unit price times that selection's quantity. -/
def orderTotalPriceMulti (item : MenuItem) (cm : Option Member)
    (sels : List (Nat × UserSelection)) : ℚ :=
  sels.foldl
    (fun sum p =>
      sum + getDiscountedPrice item cm p.2.variation.price (some p.2.variation) * p.2.quantity)
    0

/-- Result of the watched-order resolution in `Menu.tsx`: the persisted
identifier left in storage, the banner's order id, the remembered status,
and whether the status dialog is open. -/
structure TrackerResult where
  storedId : Option String
  processingOrderId : Option String
  currentOrderStatus : Option OrderStatus
  isOrderModalOpen : Bool
deriving DecidableEq, Repr

/-- `checkProcessingOrder` from `Menu.tsx` (lines 126-157), the
Pending-Order Tracker's `resolveOnLoad`: reads the persisted watched-order
id, resolves it against the store (`fetched` is the `fetchOrderById`
result, `none` when the order was not found or the fetch failed), clears
the persisted id when nothing comes back, shows the banner for every found
status, and auto-opens the dialog only for `pending`/`processing`. -/
def checkProcessingOrder (storedOrderId : Option String) (fetched : Option Order)
    (modalOpen : Bool) : TrackerResult :=
  match storedOrderId with
  | some id =>
    match fetched with
    | some o =>
      if o.status = OrderStatus.pending ∨ o.status = OrderStatus.processing ∨
          o.status = OrderStatus.approved ∨ o.status = OrderStatus.rejected then
        { storedId := some id, processingOrderId := some id,
          currentOrderStatus := some o.status,
          isOrderModalOpen :=
            if o.status = OrderStatus.pending ∨ o.status = OrderStatus.processing then
              true
            else modalOpen }
      else
        { storedId := none, processingOrderId := none,
          currentOrderStatus := none, isOrderModalOpen := modalOpen }
    | none =>
      { storedId := none, processingOrderId := none,
        currentOrderStatus := none, isOrderModalOpen := modalOpen }
  | none =>
    { storedId := none, processingOrderId := none,
      currentOrderStatus := none, isOrderModalOpen := modalOpen }

/-- A product with an active 10% discount, used as a concrete instance. -/
def itemTenOff : MenuItem :=
  { name := "Game A", isOnDiscount := true, discountPercentage := some (1 / 10) }

/-- A product with no active discount, used as a concrete instance. -/
def itemNoDisc : MenuItem :=
  { name := "Game B", isOnDiscount := false, discountPercentage := none }

/-- A variation with both tier overrides set, used as a concrete instance. -/
def varBothOverrides : Variation :=
  { id := "v1", name := "100 credits", price := 100,
    reseller_price := some 80, member_price := some 90 }

/-- A reseller viewer, used as a concrete instance. -/
def memberReseller : Member := { user_type := UserType.reseller }

/-- An end-user member viewer, used as a concrete instance. -/
def memberEndUser : Member := { user_type := UserType.end_user }

/-- A plain ₱100 variation with no tier overrides, used as a concrete
instance. -/
def var100 : Variation :=
  { id := "v2", name := "P100", price := 100 }

/-- A plain ₱80 variation with no tier overrides, used as a concrete
instance. -/
def var80 : Variation :=
  { id := "v3", name := "P80", price := 80 }

/-- A plain ₱50 variation with no tier overrides, used as a concrete
instance. -/
def var50 : Variation :=
  { id := "v4", name := "P50", price := 50 }

/-- Concrete orders of each status, used as concrete instances. -/
def orderPending : Order := { id := "ord-p", status := OrderStatus.pending }

/-- Concrete processing order, used as a concrete instance. -/
def orderProcessing : Order := { id := "ord-s", status := OrderStatus.processing }

/-- Concrete approved order, used as a concrete instance. -/
def orderApproved : Order := { id := "ord-a", status := OrderStatus.approved }

/-- Concrete rejected order, used as a concrete instance. -/
def orderRejected : Order := { id := "ord-r", status := OrderStatus.rejected }

/-- Client state of the Order Status Dialog (`OrderStatusModal.tsx`, first
variant, lines 14-89): the rendered order record, the loading flag, and
the `shouldContinuePolling` ref. -/
structure DialogState where
  order : Option Order
  loading : Bool
  shouldContinuePolling : Bool
deriving DecidableEq, Repr

/-- The dialog's state on a fresh open (`useState` initials plus the refs
set by the mount effect). -/
def dialogInit : DialogState :=
  { order := none, loading := true, shouldContinuePolling := true }

/-- The `setOrder` updater inside `loadOrder` (lines 38-52): keep the
previous record unless it is the first load, the status or `updated_at`
changed, or the fresh record is terminal. -/
def setOrderNext (prevOrder : Option Order) (isInitial : Bool) (orderData : Order) :
    Option Order :=
  match prevOrder with
  | none => some orderData
  | some prev =>
    if isInitial then some orderData
    else if prev.status ≠ orderData.status ∨ prev.updated_at ≠ orderData.updated_at then
      some orderData
    else if orderData.status = OrderStatus.approved ∨
        orderData.status = OrderStatus.rejected then
      some orderData
    else some prev

/-- `loadOrder` from `OrderStatusModal.tsx` (first variant, lines 22-64):
one fetch of the watched order; `fetched` is the `fetchOrderById` result
(`none` on failure or not-found).  A terminal status turns polling off;
a `none` result clears the record only on the initial load. -/
def loadOrder (st : DialogState) (isInitial : Bool) (fetched : Option Order) :
    DialogState :=
  let st1 := if isInitial then { st with loading := true } else st
  let st2 :=
    match fetched with
    | some orderData =>
      let st3 :=
        if orderData.status = OrderStatus.approved ∨
            orderData.status = OrderStatus.rejected then
          { st1 with shouldContinuePolling := false }
        else st1
      { st3 with order := setOrderNext st3.order isInitial orderData }
    | none => if isInitial then { st1 with order := none } else st1
  if isInitial then { st2 with loading := false } else st2

/-- One 3-second interval tick (lines 72-77): `loadOrder` runs — and a
network fetch is issued — only while `shouldContinuePolling` holds.  The
second component counts fetches issued by the tick. -/
def pollTick (st : DialogState) (fetched : Option Order) : DialogState × Nat :=
  if st.shouldContinuePolling then (loadOrder st false fetched, 1) else (st, 0)

/-- A run of successive interval ticks, fed by the fetch results the store
would return; counts the total number of fetches issued. -/
def runPolls : DialogState → List (Option Order) → DialogState × Nat
  | st, [] => (st, 0)
  | st, f :: fs =>
    let r := pollTick st f
    let rest := runPolls r.1 fs
    (rest.1, r.2 + rest.2)

/-- The dialog-closed branch of the mount effect (lines 79-88): state is
reset only when the rendered order is not terminal; a terminal record is
kept so it is still rendered when the dialog reopens. -/
def closeDialogReset (st : DialogState) : DialogState :=
  match st.order with
  | some o =>
    if o.status ≠ OrderStatus.approved ∧ o.status ≠ OrderStatus.rejected then
      { order := none, loading := true, shouldContinuePolling := true }
    else st
  | none => { order := none, loading := true, shouldContinuePolling := true }

/-- Which callback the dialog's close button invokes. -/
inductive CloseAction
  | acknowledge
  | dismiss
deriving DecidableEq, Repr

/-- Close-button routing of the second `OrderStatusModal` variant
(lines 487-495): a terminal order (approved or rejected) routes to the
`onSucceededClose` acknowledgment callback, anything else to `onClose`. -/
def closeButtonRoute (order : Option Order) : CloseAction :=
  match order with
  | some o =>
    if o.status = OrderStatus.approved ∨ o.status = OrderStatus.rejected then
      CloseAction.acknowledge
    else CloseAction.dismiss
  | none => CloseAction.dismiss

/-- Close-button routing of the first `OrderStatusModal` variant
(lines 149-157): only an approved order routes to the acknowledgment
callback; a rejected order takes the plain `onClose` path. -/
def closeButtonRouteFirst (order : Option Order) : CloseAction :=
  match order with
  | some o =>
    if o.status = OrderStatus.approved then CloseAction.acknowledge
    else CloseAction.dismiss
  | none => CloseAction.dismiss

/-- The `onSucceededClose` acknowledgment handler
(`GameItemOrderModal.tsx` lines 931-935, and identically in the app shell
of `part_003` lines 194-198): removes the persisted `current_order_id`
unconditionally. -/
def acknowledgeTerminalClose (_stored : Option String) : Option String := none

/-- The `onClose` plain-dismiss handler of `GameItemOrderModal.tsx`
(lines 919-930): the dialog is hidden, then the order is re-fetched and
the persisted id is removed only when the order turned out approved. -/
def gameModalOnClose (orderId : Option String) (fetched : Option Order) :
    Option String :=
  match orderId with
  | some _ =>
    match fetched with
    | some o => if o.status = OrderStatus.approved then none else orderId
    | none => orderId
  | none => none

/-- The `onClose` handler of the `part_003` app shell (line 193): hides
the dialog and leaves the persisted id untouched. -/
def appShellOnClose (stored : Option String) : Option String := stored

/-- `handleModalClose` from `Menu.tsx` (lines 39-61): hides the dialog; a
known- or freshly-fetched-terminal order clears the watch, anything else
leaves the persisted id and banner state untouched. -/
def handleModalClose (storedId : Option String) (processingOrderId : Option String)
    (currentOrderStatus : Option OrderStatus) (fetched : Option Order) :
    TrackerResult :=
  if processingOrderId.isSome ∧
      (currentOrderStatus = some OrderStatus.approved ∨
       currentOrderStatus = some OrderStatus.rejected) then
    { storedId := none, processingOrderId := none,
      currentOrderStatus := none, isOrderModalOpen := false }
  else
    match processingOrderId with
    | some _ =>
      match fetched with
      | some o =>
        if o.status = OrderStatus.approved ∨ o.status = OrderStatus.rejected then
          { storedId := none, processingOrderId := none,
            currentOrderStatus := none, isOrderModalOpen := false }
        else
          { storedId := storedId, processingOrderId := processingOrderId,
            currentOrderStatus := some o.status, isOrderModalOpen := false }
      | none =>
        { storedId := storedId, processingOrderId := processingOrderId,
          currentOrderStatus := currentOrderStatus, isOrderModalOpen := false }
    | none =>
      { storedId := storedId, processingOrderId := none,
        currentOrderStatus := currentOrderStatus, isOrderModalOpen := false }

/-- `MIN_FETCH_INTERVAL_MS` from the paginated `useOrders` hook
(`part_009` line 195): the guard window in milliseconds. -/
def MIN_FETCH_INTERVAL_MS : Int := 2000

/-- The repository's refresh bookkeeping: the `lastFetchRef` timestamp and
the times at which page fetches were issued. -/
structure SyncState where
  lastFetch : Int
  fetchLog : List Int
deriving DecidableEq, Repr

/-- A timer tick of the 30-second poll (`part_009` lines 199-204): skipped
entirely when some fetch happened within the guard window, otherwise it
records the time and fetches the current page. -/
def timerTick (st : SyncState) (now : Int) : SyncState :=
  if now - st.lastFetch < MIN_FETCH_INTERVAL_MS then st
  else { lastFetch := now, fetchLog := st.fetchLog ++ [now] }

/-- A `postgres_changes` push notification (`part_009` lines 227-233):
records the time to pre-empt the next poll, then fetches the current page
after a 100 ms delay — unconditionally. -/
def pushChange (st : SyncState) (now : Int) : SyncState :=
  { lastFetch := now, fetchLog := st.fetchLog ++ [now + 100] }

/-- A refresh trigger with its arrival time. -/
inductive SyncEvent
  | timer (t : Int)
  | push (t : Int)
deriving DecidableEq, Repr

/-- Processes a sequence of refresh triggers. -/
def runSync : SyncState → List SyncEvent → SyncState
  | st, [] => st
  | st, SyncEvent.timer t :: es => runSync (timerTick st t) es
  | st, SyncEvent.push t :: es => runSync (pushChange st t) es

/-- The hook's initial bookkeeping (`lastFetchRef = useRef<number>(0)`). -/
def initialSync : SyncState := { lastFetch := 0, fetchLog := [] }

/-- The update object written by `updateOrderStatus` (`part_009` lines
153-168).  `rejection_reason = none` means the column is not touched,
`some none` means it is cleared (written `null`), `some (some r)` means
the reason `r` is written. -/
structure UpdatePayload where
  status : OrderStatus
  rejection_reason : Option (Option String)
deriving DecidableEq, Repr

/-- Builds the update object: a non-empty reason is written only when the
new status is `rejected`; any other status clears the column; a rejected
update without a (non-empty) reason leaves the column untouched.  The
empty string models a falsy `rejectionReason`. -/
def buildUpdateData (status : OrderStatus) (rejectionReason : Option String) :
    UpdatePayload :=
  if status = OrderStatus.rejected then
    match rejectionReason with
    | some r =>
      if r = "" then { status := status, rejection_reason := none }
      else { status := status, rejection_reason := some (some r) }
    | none => { status := status, rejection_reason := none }
  else { status := status, rejection_reason := some none }

/-- Outcome of one `updateOrderStatus` call: the payload written, the
returned boolean, and which page was re-fetched (if any). -/
structure UpdateResult where
  payload : UpdatePayload
  success : Bool
  refetchedPage : Option Nat
deriving DecidableEq, Repr

/-- `updateOrderStatus` from `part_009` (lines 153-180): writes the update
object, and on success re-fetches the current page and returns `true`; on
a write error returns `false` without re-fetching.  `writeOk` stands for
whether the remote write succeeded. -/
def updateOrderStatus (_orderId : String) (status : OrderStatus)
    (rejectionReason : Option String) (currentPage : Nat) (writeOk : Bool) :
    UpdateResult :=
  if writeOk then
    { payload := buildUpdateData status rejectionReason, success := true,
      refetchedPage := some currentPage }
  else
    { payload := buildUpdateData status rejectionReason, success := false,
      refetchedPage := none }

/-- What the remote store did for one `fetchOrderById` call. -/
inductive FetchOutcome
  | ok (o : Order)
  | failed
deriving DecidableEq, Repr

/-- `fetchOrderById` from `useOrders.ts` (lines 36-51): every error is
caught and collapsed to `null`, indistinguishable from not-found. -/
def fetchOrderById : FetchOutcome → Option Order
  | FetchOutcome.ok o => some o
  | FetchOutcome.failed => none

/-- Insertion into a lexicographically sorted list of strings. -/
def insertSorted (s : String) : List String → List String
  | [] => [s]
  | t :: ts => if s ≤ t then s :: t :: ts else t :: insertSorted s ts

/-- Lexicographic string sort, modelling `Array.prototype.sort()`. -/
def sortStrings (l : List String) : List String := l.foldr insertSorted []

/-- Models JavaScript `String(number)` for the price component of the
aggregation key: an injective rendering that contains no `|`. -/
def ratKey (q : ℚ) : String := toString q.num ++ "/" ++ toString q.den

/-- The add-ons component of the aggregation key (`part_004` lines 14-19):
`id:quantity` per add-on, sorted and comma-joined; empty when there are no
add-ons. -/
def aggAddOnsKey (addOns : List CartAddOn) : String :=
  match addOns with
  | [] => ""
  | _ =>
    String.intercalate ","
      (sortStrings (addOns.map (fun a => a.id ++ ":" ++ toString (a.quantity.getD 1))))

/-- The variation component of the aggregation key
(`item.selectedVariation?.id ?? item.selectedVariation?.name ?? ''`). -/
def aggVariationKey : Option Variation → String
  | some v => v.id
  | none => ""

/-- The grouping key of `aggregateOrderItems` (`part_004` lines 20-25):
name, variation id, add-ons encoding and price, joined with `|`. -/
def aggKey (item : CartItem) : String :=
  String.intercalate "|"
    [item.name, aggVariationKey item.selectedVariation,
     aggAddOnsKey item.selectedAddOns, ratKey item.totalPrice]

/-- One loop iteration of `aggregateOrderItems` (`part_004` lines 13-35)
over the insertion-ordered key map: an existing entry accumulates the
item's quantity, a new key appends a copy of the item. -/
def aggStep (acc : List (String × CartItem)) (item : CartItem) :
    List (String × CartItem) :=
  let key := aggKey item
  let qty := item.quantity
  if (acc.find? (fun p => decide (p.1 = key))).isSome then
    acc.map (fun p =>
      if p.1 = key then (p.1, { p.2 with quantity := p.2.quantity + qty }) else p)
  else acc ++ [(key, { item with quantity := qty })]

/-- `aggregateOrderItems` from `part_004`: groups identical line items
(same name, variation, add-ons, unit price) and sums their quantities,
preserving first-occurrence order. -/
def aggregateOrderItems (items : List CartItem) : List CartItem :=
  if items.isEmpty then []
  else (items.foldl aggStep []).map (fun p => p.2)

/-- Specification of one output group: the first input item carrying key
`k`, with the summed quantity of all input items carrying key `k`. -/
def aggGroup (items : List CartItem) (k : String) : List CartItem :=
  match items.find? (fun it => decide (aggKey it = k)) with
  | none => []
  | some fstIt =>
    [{ fstIt with
        quantity :=
          ((items.filter (fun it => decide (aggKey it = k))).map CartItem.quantity).sum }]

/-- A quantity-1 expanded line item, used as a concrete instance. -/
def itemLine100 : CartItem :=
  { name := "Game A", selectedVariation := some var100, selectedAddOns := [],
    quantity := 1, totalPrice := 100 }

/-- A variation whose id is a plain string, used in the collision
instance. -/
def varIdC : Variation := { id := "c", name := "c", price := 0 }

/-- A variation whose id contains the `|` key delimiter, used in the
collision instance. -/
def varIdBC : Variation := { id := "b|c", name := "bc", price := 0 }

/-- A line item whose name contains the `|` key delimiter. -/
def collideA : CartItem :=
  { name := "a|b", selectedVariation := some varIdC, selectedAddOns := [],
    quantity := 1, totalPrice := 0 }

/-- A line item with a different name and variation whose `|`-joined key
collides with `collideA`. -/
def collideB : CartItem :=
  { name := "a", selectedVariation := some varIdBC, selectedAddOns := [],
    quantity := 1, totalPrice := 0 }

/-- C1: the effective unit price follows the priority chain of
`getDiscountedPrice`: reseller override first (regardless of any active
discount), then end-user member override, then active percentage discount
`basePrice * (1 - d)`, then the base price unchanged. -/
theorem pricing_resolution_priority (item : MenuItem) (m : Member)
    (v : Variation) (B d : ℚ) :
    (∀ R : ℚ, m.user_type = UserType.reseller → v.reseller_price = some R →
      getDiscountedPrice item (some m) B (some v) = R) ∧
    (∀ M : ℚ, m.user_type = UserType.end_user → v.member_price = some M →
      getDiscountedPrice item (some m) B (some v) = M) ∧
    ((m.user_type = UserType.reseller → v.reseller_price = none) →
     (m.user_type = UserType.end_user → v.member_price = none) →
     item.isOnDiscount = true → item.discountPercentage = some d →
      getDiscountedPrice item (some m) B (some v) = B * (1 - d)) ∧
    (item.isOnDiscount = true → item.discountPercentage = some d →
      getDiscountedPrice item none B (some v) = B * (1 - d)) ∧
    ((m.user_type = UserType.reseller → v.reseller_price = none) →
     (m.user_type = UserType.end_user → v.member_price = none) →
     (item.isOnDiscount = false ∨ item.discountPercentage = none) →
      getDiscountedPrice item (some m) B (some v) = B) ∧
    ((item.isOnDiscount = false ∨ item.discountPercentage = none) →
      getDiscountedPrice item none B (some v) = B) := by
  refine ⟨?_, ?_, ?_, ?_, ?_, ?_⟩
  · intro R hu hR
    simp [getDiscountedPrice, hu, hR]
  · intro M hu hM
    simp [getDiscountedPrice, hu, hM]
  · intro hres hmem hdisc hd
    cases hu : m.user_type with
    | reseller => simp [getDiscountedPrice, hu, hres hu, hdisc, hd]
    | end_user => simp [getDiscountedPrice, hu, hmem hu, hdisc, hd]
  · intro hdisc hd
    simp [getDiscountedPrice, hdisc, hd]
  · intro hres hmem hoff
    cases hu : m.user_type with
    | reseller =>
      rcases hoff with h | h <;>
        simp [getDiscountedPrice, hu, hres hu, h]
    | end_user =>
      rcases hoff with h | h <;>
        simp [getDiscountedPrice, hu, hmem hu, h]
  · intro hoff
    rcases hoff with h | h <;> simp [getDiscountedPrice, h]

/-- Witness for C1 at concrete inputs: with a 10% discount active, a
reseller gets the override 80, a member gets 90, an anonymous viewer gets
`100 * (1 - 1/10)`, and with no discount the base price 100 is returned. -/
theorem pricing_resolution_priority_witness :
    getDiscountedPrice itemTenOff (some memberReseller) 100 (some varBothOverrides) = 80 ∧
    getDiscountedPrice itemTenOff (some memberEndUser) 100 (some varBothOverrides) = 90 ∧
    getDiscountedPrice itemTenOff none 100 (some varBothOverrides) = 100 * (1 - 1 / 10) ∧
    getDiscountedPrice itemNoDisc none 100 (some varBothOverrides) = 100 :=
  ⟨(pricing_resolution_priority itemTenOff memberReseller varBothOverrides 100 (1 / 10)).1
      80 rfl rfl,
   (pricing_resolution_priority itemTenOff memberEndUser varBothOverrides 100 (1 / 10)).2.1
      90 rfl rfl,
   (pricing_resolution_priority itemTenOff memberEndUser varBothOverrides 100 (1 / 10)).2.2.2.1
      rfl rfl,
   (pricing_resolution_priority itemNoDisc memberEndUser varBothOverrides 100 0).2.2.2.2.2
      (Or.inl rfl)⟩

/-- Folding `+ f x` over a list starting from `a` yields `a` plus the sum
of the mapped list. -/
theorem foldl_add_map_sum {α : Type} (f : α → ℚ) :
    ∀ (l : List α) (a : ℚ), l.foldl (fun s x => s + f x) a = a + (l.map f).sum := by
  intro l
  induction l with
  | nil => intro a; simp
  | cons x xs ih => intro a; simp [ih, add_assoc]

/-- The multi-account expansion's fold appends onto its accumulator. -/
theorem expandMultiAccounts_foldl_acc (item : MenuItem) (cm : Option Member)
    (numAccounts : Nat) :
    ∀ (sels : List (Nat × UserSelection)) (acc : List CartItem),
      sels.foldl
        (fun acc p =>
          if p.1 < numAccounts then
            acc ++ List.replicate p.2.quantity (expandedLine item cm p.2.variation)
          else acc)
        acc =
      acc ++
        sels.foldl
          (fun acc p =>
            if p.1 < numAccounts then
              acc ++ List.replicate p.2.quantity (expandedLine item cm p.2.variation)
            else acc)
          [] := by
  intro sels
  induction sels with
  | nil => intro acc; simp
  | cons p ps ih =>
    intro acc
    simp only [List.foldl_cons]
    rw [ih (if p.1 < numAccounts then
          acc ++ List.replicate p.2.quantity (expandedLine item cm p.2.variation)
        else acc),
       ih (if p.1 < numAccounts then
          [] ++ List.replicate p.2.quantity (expandedLine item cm p.2.variation)
        else [])]
    by_cases h : p.1 < numAccounts <;> simp [h]

/-- Cons normal form of the multi-account expansion. -/
theorem expandMultiAccounts_cons (item : MenuItem) (cm : Option Member)
    (numAccounts : Nat) (p : Nat × UserSelection) (ps : List (Nat × UserSelection)) :
    expandMultiAccounts item cm numAccounts (p :: ps) =
      (if p.1 < numAccounts then
        List.replicate p.2.quantity (expandedLine item cm p.2.variation)
      else []) ++ expandMultiAccounts item cm numAccounts ps := by
  show List.foldl _ _ _ = _
  simp only [List.foldl_cons]
  rw [expandMultiAccounts_foldl_acc item cm numAccounts ps]
  by_cases h : p.1 < numAccounts <;> simp [h, expandMultiAccounts]

/-- The multi-account total is the sum of unit price times quantity over
the selections. -/
theorem orderTotalPriceMulti_eq_sum (item : MenuItem) (cm : Option Member)
    (sels : List (Nat × UserSelection)) :
    orderTotalPriceMulti item cm sels =
      (sels.map (fun p =>
        getDiscountedPrice item cm p.2.variation.price (some p.2.variation) *
          p.2.quantity)).sum := by
  unfold orderTotalPriceMulti
  rw [foldl_add_map_sum]
  simp

/-- C2: a quantity-`N` purchase of one variation for one account expands
into exactly `N` line items of quantity 1 whose `totalPrice` is the
resolved unit price, and the submitted `total_price` equals the sum of the
expanded line items' unit prices; in multi-account mode, with every
selection's account present, the same holds per account and the total is
unit price times quantity summed over accounts. -/
theorem order_expansion_and_total (item : MenuItem) (cm : Option Member)
    (v : Variation) (N : Nat) (hN : 1 ≤ N)
    (numAccounts : Nat) (sels : List (Nat × UserSelection))
    (hsels : ∀ p ∈ sels, p.1 < numAccounts) :
    (expandSingleAccount item cm v N).length = N ∧
    (∀ it ∈ expandSingleAccount item cm v N,
      it.quantity = 1 ∧ it.selectedVariation = some v ∧
      it.totalPrice = getDiscountedPrice item cm v.price (some v)) ∧
    ((expandSingleAccount item cm v N).map CartItem.totalPrice).sum =
      orderTotalPriceSingle item cm v N ∧
    (∀ it ∈ expandMultiAccounts item cm numAccounts sels, it.quantity = 1) ∧
    (expandMultiAccounts item cm numAccounts sels).length =
      (sels.map (fun p => p.2.quantity)).sum ∧
    ((expandMultiAccounts item cm numAccounts sels).map CartItem.totalPrice).sum =
      orderTotalPriceMulti item cm sels := by
  have hmulti : ∀ (l : List (Nat × UserSelection)),
      (∀ p ∈ l, p.1 < numAccounts) →
      (∀ it ∈ expandMultiAccounts item cm numAccounts l, it.quantity = 1) ∧
      (expandMultiAccounts item cm numAccounts l).length =
        (l.map (fun p => p.2.quantity)).sum ∧
      ((expandMultiAccounts item cm numAccounts l).map CartItem.totalPrice).sum =
        orderTotalPriceMulti item cm l := by
    intro l
    induction l with
    | nil =>
      intro _
      refine ⟨?_, ?_, ?_⟩ <;> simp [expandMultiAccounts, orderTotalPriceMulti]
    | cons p ps ih =>
      intro hl
      have hp : p.1 < numAccounts := hl p (List.mem_cons_self p ps)
      obtain ⟨ih1, ih2, ih3⟩ := ih (fun q hq => hl q (List.mem_cons_of_mem p hq))
      refine ⟨?_, ?_, ?_⟩
      · intro it hit
        rw [expandMultiAccounts_cons] at hit
        rcases List.mem_append.mp hit with h | h
        · rw [if_pos hp] at h
          obtain ⟨-, rfl⟩ := (List.mem_replicate).mp h
          rfl
        · exact ih1 it h
      · rw [expandMultiAccounts_cons, if_pos hp]
        simp [ih2]
      · rw [expandMultiAccounts_cons, if_pos hp, orderTotalPriceMulti_eq_sum]
        rw [orderTotalPriceMulti_eq_sum] at ih3
        simp [List.map_append, List.sum_append, List.map_replicate,
          List.sum_replicate, nsmul_eq_mul, ih3, expandedLine, mul_comm]
  obtain ⟨h4, h5, h6⟩ := hmulti sels hsels
  refine ⟨?_, ?_, ?_, h4, h5, h6⟩
  · simp [expandSingleAccount]
  · intro it hit
    obtain ⟨-, rfl⟩ := (List.mem_replicate).mp hit
    exact ⟨rfl, rfl, rfl⟩
  · simp [expandSingleAccount, List.map_replicate, List.sum_replicate,
      nsmul_eq_mul, orderTotalPriceSingle, expandedLine, mul_comm]

/-- Witness for C2 at concrete inputs: 3 units of a ₱100 variation give 3
line items and `total_price` `300`; two accounts at ₱100 × 2 and ₱80 × 1
give line items summing to `180`. -/
theorem order_expansion_and_total_witness :
    (expandSingleAccount itemNoDisc none var100 3).length = 3 ∧
    ((expandSingleAccount itemNoDisc none var100 3).map CartItem.totalPrice).sum =
      orderTotalPriceSingle itemNoDisc none var100 3 ∧
    ((expandMultiAccounts itemNoDisc none 2
        [(0, ⟨var50, 2⟩), (1, ⟨var80, 1⟩)]).map CartItem.totalPrice).sum =
      orderTotalPriceMulti itemNoDisc none [(0, ⟨var50, 2⟩), (1, ⟨var80, 1⟩)] ∧
    orderTotalPriceSingle itemNoDisc none var100 3 = 300 ∧
    orderTotalPriceMulti itemNoDisc none [(0, ⟨var50, 2⟩), (1, ⟨var80, 1⟩)] = 180 :=
  ⟨(order_expansion_and_total itemNoDisc none var100 3 (by decide) 2
      [(0, ⟨var50, 2⟩), (1, ⟨var80, 1⟩)] (by decide)).1,
   (order_expansion_and_total itemNoDisc none var100 3 (by decide) 2
      [(0, ⟨var50, 2⟩), (1, ⟨var80, 1⟩)] (by decide)).2.2.1,
   (order_expansion_and_total itemNoDisc none var100 3 (by decide) 2
      [(0, ⟨var50, 2⟩), (1, ⟨var80, 1⟩)] (by decide)).2.2.2.2.2,
   by norm_num [orderTotalPriceSingle, getDiscountedPrice, itemNoDisc, var100],
   by norm_num [orderTotalPriceMulti, getDiscountedPrice, itemNoDisc, var50, var80]⟩

/-- C3: `checkProcessingOrder` (the tracker's `resolveOnLoad`) is a
three-way case split: nothing fetched clears the persisted id and reports
nothing to watch; a `pending`/`processing` order is watched and the status
dialog auto-opens; an `approved`/`rejected` order is watched (banner) but
the dialog's open flag is left as it was. -/
theorem resolveOnLoad_three_way (id : String) (modalOpen : Bool) :
    ((checkProcessingOrder (some id) none modalOpen).storedId = none ∧
     (checkProcessingOrder (some id) none modalOpen).processingOrderId = none) ∧
    (∀ o : Order,
      o.status = OrderStatus.pending ∨ o.status = OrderStatus.processing →
      (checkProcessingOrder (some id) (some o) modalOpen).storedId = some id ∧
      (checkProcessingOrder (some id) (some o) modalOpen).processingOrderId = some id ∧
      (checkProcessingOrder (some id) (some o) modalOpen).isOrderModalOpen = true) ∧
    (∀ o : Order,
      o.status = OrderStatus.approved ∨ o.status = OrderStatus.rejected →
      (checkProcessingOrder (some id) (some o) modalOpen).storedId = some id ∧
      (checkProcessingOrder (some id) (some o) modalOpen).processingOrderId = some id ∧
      (checkProcessingOrder (some id) (some o) modalOpen).isOrderModalOpen = modalOpen) := by
  refine ⟨⟨rfl, rfl⟩, ?_, ?_⟩
  · intro o ho
    rcases ho with h | h <;> simp [checkProcessingOrder, h]
  · intro o ho
    rcases ho with h | h <;> simp [checkProcessingOrder, h]

/-- Witness for C3 at concrete inputs: a missing order clears the watch,
a pending order auto-opens, a rejected order is watched but does not
change a closed dialog. -/
theorem resolveOnLoad_three_way_witness :
    (checkProcessingOrder (some "ord-1") none false).storedId = none ∧
    (checkProcessingOrder (some "ord-1") (some orderPending) false).isOrderModalOpen = true ∧
    (checkProcessingOrder (some "ord-1") (some orderRejected) false).processingOrderId =
      some "ord-1" ∧
    (checkProcessingOrder (some "ord-1") (some orderRejected) false).isOrderModalOpen = false :=
  ⟨(resolveOnLoad_three_way "ord-1" false).1.1,
   ((resolveOnLoad_three_way "ord-1" false).2.1 orderPending (Or.inl rfl)).2.2,
   ((resolveOnLoad_three_way "ord-1" false).2.2 orderRejected (Or.inr rfl)).2.1,
   ((resolveOnLoad_three_way "ord-1" false).2.2 orderRejected (Or.inr rfl)).2.2⟩

/-- A stopped dialog issues no fetch and never changes state, however many
ticks elapse. -/
theorem runPolls_stopped (s : DialogState) (hs : s.shouldContinuePolling = false) :
    ∀ fs : List (Option Order), runPolls s fs = (s, 0) := by
  intro fs
  induction fs with
  | nil => rfl
  | cons f fs ih => simp [runPolls, pollTick, hs, ih]

/-- Receiving a terminal record puts the dialog in a stopped state that
renders exactly that record. -/
theorem loadOrder_terminal (st : DialogState) (b : Bool) (o : Order)
    (h : o.status = OrderStatus.approved ∨ o.status = OrderStatus.rejected) :
    loadOrder st b (some o) =
      { order := some o, loading := if b then false else st.loading,
        shouldContinuePolling := false } := by
  have hcond : (o.status = OrderStatus.approved ∨ o.status = OrderStatus.rejected) = True :=
    eq_true h
  cases b <;> rcases hst : st.order with _ | p <;>
    simp [loadOrder, setOrderNext, hcond, hst, ite_self]

/-- C4: once an open dialog instance observes a terminal status, polling
is off, every later tick issues zero fetches and leaves the state — and
hence the rendered terminal record — unchanged, and closing the dialog
does not reset it, so the last-known terminal record stays rendered. -/
theorem dialog_terminal_freezes (st : DialogState) (b : Bool) (o : Order)
    (hterm : o.status = OrderStatus.approved ∨ o.status = OrderStatus.rejected)
    (fs : List (Option Order)) :
    (loadOrder st b (some o)).order = some o ∧
    (loadOrder st b (some o)).shouldContinuePolling = false ∧
    runPolls (loadOrder st b (some o)) fs = (loadOrder st b (some o), 0) ∧
    closeDialogReset (loadOrder st b (some o)) = loadOrder st b (some o) := by
  have hL := loadOrder_terminal st b o hterm
  refine ⟨by rw [hL], by rw [hL], runPolls_stopped _ (by rw [hL]) fs, ?_⟩
  rw [hL]
  rcases hterm with h | h <;> simp [closeDialogReset, h]

/-- Witness for C4 at concrete inputs: after an approved record arrives,
two more ticks (whatever the store would have answered) issue no fetch
and leave the dialog rendering the approved record; closing keeps it. -/
theorem dialog_terminal_freezes_witness :
    (loadOrder dialogInit true (some orderApproved)).order = some orderApproved ∧
    runPolls (loadOrder dialogInit true (some orderApproved))
        [some orderPending, none] =
      (loadOrder dialogInit true (some orderApproved), 0) ∧
    closeDialogReset (loadOrder dialogInit true (some orderApproved)) =
      loadOrder dialogInit true (some orderApproved) :=
  ⟨(dialog_terminal_freezes dialogInit true orderApproved (Or.inl rfl)
      [some orderPending, none]).1,
   (dialog_terminal_freezes dialogInit true orderApproved (Or.inl rfl)
      [some orderPending, none]).2.2.1,
   (dialog_terminal_freezes dialogInit true orderApproved (Or.inl rfl)
      [some orderPending, none]).2.2.2⟩

/-- C5: for a terminal order (approved or rejected) the dialog's close
button routes to the acknowledgment callback, the acknowledgment handler
clears the persisted watched-order id, and a subsequent `resolveOnLoad`
reports nothing to watch even when the order still exists remotely. -/
theorem terminal_ack_clears_watch (stored : Option String) (o : Order)
    (hterm : o.status = OrderStatus.approved ∨ o.status = OrderStatus.rejected) :
    closeButtonRoute (some o) = CloseAction.acknowledge ∧
    acknowledgeTerminalClose stored = none ∧
    ∀ (remote : Option Order) (open0 : Bool),
      (checkProcessingOrder (acknowledgeTerminalClose stored) remote open0).storedId =
        none ∧
      (checkProcessingOrder (acknowledgeTerminalClose stored) remote open0).processingOrderId =
        none := by
  refine ⟨?_, rfl, fun remote open0 => ⟨rfl, rfl⟩⟩
  rcases hterm with h | h <;> simp [closeButtonRoute, h]

/-- Witness for C5 at concrete inputs: a rejected order routes to the
acknowledgment callback, and afterwards `resolveOnLoad` finds nothing to
watch although the rejected order is still in the store. -/
theorem terminal_ack_clears_watch_witness :
    closeButtonRoute (some orderRejected) = CloseAction.acknowledge ∧
    acknowledgeTerminalClose (some "ord-r") = none ∧
    (checkProcessingOrder (acknowledgeTerminalClose (some "ord-r"))
        (some orderRejected) false).processingOrderId = none :=
  ⟨(terminal_ack_clears_watch (some "ord-r") orderRejected (Or.inr rfl)).1,
   (terminal_ack_clears_watch (some "ord-r") orderRejected (Or.inr rfl)).2.1,
   ((terminal_ack_clears_watch (some "ord-r") orderRejected (Or.inr rfl)).2.2
      (some orderRejected) false).2⟩

/-- C6: while the watched order is still in progress, the close button of
either dialog variant routes to plain dismiss, and every plain-dismiss
handler leaves the persisted id (and the banner's order id) unchanged —
only the dialog's visibility changes. -/
theorem plain_dismiss_preserves_watch (sid : String) (o : Order)
    (hprog : o.status = OrderStatus.pending ∨ o.status = OrderStatus.processing)
    (knownStatus : Option OrderStatus)
    (hks : knownStatus = none ∨ knownStatus = some o.status) :
    closeButtonRoute (some o) = CloseAction.dismiss ∧
    closeButtonRouteFirst (some o) = CloseAction.dismiss ∧
    gameModalOnClose (some sid) (some o) = some sid ∧
    appShellOnClose (some sid) = some sid ∧
    (handleModalClose (some sid) (some sid) knownStatus (some o)).storedId = some sid ∧
    (handleModalClose (some sid) (some sid) knownStatus (some o)).processingOrderId =
      some sid ∧
    (handleModalClose (some sid) (some sid) knownStatus (some o)).isOrderModalOpen =
      false := by
  rcases hprog with h | h <;> rcases hks with hk | hk <;> subst hk <;>
    refine ⟨by simp [closeButtonRoute, h], by simp [closeButtonRouteFirst, h],
      by simp [gameModalOnClose, h], rfl, ?_, ?_, ?_⟩ <;>
    simp [handleModalClose, h]

/-- Witness for C6 at concrete inputs: dismissing while the order is
pending leaves the persisted id `"ord-1"` in place in every handler. -/
theorem plain_dismiss_preserves_watch_witness :
    closeButtonRoute (some orderPending) = CloseAction.dismiss ∧
    gameModalOnClose (some "ord-1") (some orderPending) = some "ord-1" ∧
    (handleModalClose (some "ord-1") (some "ord-1") none
        (some orderPending)).storedId = some "ord-1" :=
  ⟨(plain_dismiss_preserves_watch "ord-1" orderPending (Or.inl rfl) none
      (Or.inl rfl)).1,
   (plain_dismiss_preserves_watch "ord-1" orderPending (Or.inl rfl) none
      (Or.inl rfl)).2.2.1,
   (plain_dismiss_preserves_watch "ord-1" orderPending (Or.inl rfl) none
      (Or.inl rfl)).2.2.2.2.1⟩

/-- Counterexample to C7: a push notification 1 second after a
timer-triggered fetch causes a second fetch inside the 2-second guard
window — the guard only suppresses timer ticks, the push handler always
re-fetches. -/
theorem push_after_timer_double_fetch :
    (runSync initialSync [SyncEvent.timer 30000, SyncEvent.push 31000]).fetchLog =
      [30000, 31100] ∧
    ((runSync initialSync [SyncEvent.timer 30000, SyncEvent.push 31000]).fetchLog.filter
        (fun t => decide (30000 ≤ t ∧ t < 30000 + MIN_FETCH_INTERVAL_MS))).length = 2 := by
  decide

/-- C7 (amended): the guard suppresses only the timer: a timer tick within
`MIN_FETCH_INTERVAL_MS` of the recorded last fetch performs no fetch and
leaves the state unchanged — in particular directly after a push-triggered
fetch — while a push notification always records its time and fetches. -/
theorem guard_suppresses_timer_only (st : SyncState) (tPush tTimer : Int)
    (h : tTimer - (pushChange st tPush).lastFetch < MIN_FETCH_INTERVAL_MS) :
    (pushChange st tPush).fetchLog = st.fetchLog ++ [tPush + 100] ∧
    (pushChange st tPush).lastFetch = tPush ∧
    timerTick (pushChange st tPush) tTimer = pushChange st tPush ∧
    ∀ (s : SyncState) (t : Int),
      t - s.lastFetch < MIN_FETCH_INTERVAL_MS → timerTick s t = s :=
  ⟨rfl, rfl, by simp [timerTick, h], fun s t ht => by simp [timerTick, ht]⟩

/-- Witness for the amended C7 at concrete inputs: after a push-triggered
fetch at 31000 ms, a timer tick at 31500 ms is suppressed. -/
theorem guard_suppresses_timer_only_witness :
    timerTick (pushChange initialSync 31000) 31500 = pushChange initialSync 31000 ∧
    (pushChange initialSync 31000).fetchLog = initialSync.fetchLog ++ [31000 + 100] :=
  ⟨(guard_suppresses_timer_only initialSync 31000 31500 (by decide)).2.2.1,
   (guard_suppresses_timer_only initialSync 31000 31500 (by decide)).1⟩

/-- C8: `updateOrderStatus` writes the new status; a supplied (non-empty)
reason is written exactly when the new status is `rejected`; any other
status clears the rejection-reason column; the call returns the write's
success boolean and re-fetches the current page exactly on success. -/
theorem updateStatus_contract (orderId : String) (status : OrderStatus)
    (reason : Option String) (page : Nat) (writeOk : Bool) :
    (updateOrderStatus orderId status reason page writeOk).payload.status = status ∧
    (∀ r : String, status = OrderStatus.rejected → reason = some r → r ≠ "" →
      (updateOrderStatus orderId status reason page writeOk).payload.rejection_reason =
        some (some r)) ∧
    (status ≠ OrderStatus.rejected →
      (updateOrderStatus orderId status reason page writeOk).payload.rejection_reason =
        some none) ∧
    (updateOrderStatus orderId status reason page writeOk).success = writeOk ∧
    (writeOk = true →
      (updateOrderStatus orderId status reason page writeOk).refetchedPage = some page) ∧
    (writeOk = false →
      (updateOrderStatus orderId status reason page writeOk).refetchedPage = none) := by
  have hpayload : (updateOrderStatus orderId status reason page writeOk).payload =
      buildUpdateData status reason := by
    cases writeOk <;> rfl
  refine ⟨?_, ?_, ?_, ?_, ?_, ?_⟩
  · rw [hpayload]
    by_cases h : status = OrderStatus.rejected <;> rcases reason with _ | r <;>
      simp [buildUpdateData, h] <;> by_cases hr : r = "" <;> simp [hr]
  · intro r hstat hr hne
    subst hstat; subst hr
    rw [hpayload]
    simp [buildUpdateData, hne]
  · intro h
    rw [hpayload]
    simp [buildUpdateData, h]
  · cases writeOk <;> rfl
  · intro h; subst h; rfl
  · intro h; subst h; rfl

/-- Witness for C8 at concrete inputs: rejecting with a reason writes it,
approving clears the column, and the success path re-fetches page 2. -/
theorem updateStatus_contract_witness :
    (updateOrderStatus "ord-1" OrderStatus.rejected (some "invalid receipt") 2
        true).payload.rejection_reason = some (some "invalid receipt") ∧
    (updateOrderStatus "ord-1" OrderStatus.approved none 2
        true).payload.rejection_reason = some none ∧
    (updateOrderStatus "ord-1" OrderStatus.rejected (some "invalid receipt") 2
        true).success = true ∧
    (updateOrderStatus "ord-1" OrderStatus.rejected (some "invalid receipt") 2
        true).refetchedPage = some 2 ∧
    (updateOrderStatus "ord-1" OrderStatus.rejected (some "invalid receipt") 2
        false).success = false :=
  ⟨(updateStatus_contract "ord-1" OrderStatus.rejected (some "invalid receipt") 2
      true).2.1 "invalid receipt" rfl rfl (by decide),
   (updateStatus_contract "ord-1" OrderStatus.approved none 2 true).2.2.1 (by decide),
   (updateStatus_contract "ord-1" OrderStatus.rejected (some "invalid receipt") 2
      true).2.2.2.1,
   (updateStatus_contract "ord-1" OrderStatus.rejected (some "invalid receipt") 2
      true).2.2.2.2.1 rfl,
   (updateStatus_contract "ord-1" OrderStatus.rejected (some "invalid receipt") 2
      false).2.2.2.1⟩

/-- Counterexample to C9: a transient fetch failure while order `"ord-1"`
is being watched — `fetchOrderById` collapses the error to `null` — makes
the periodic watched-order check clear the persisted identifier instead of
leaving it unchanged. -/
theorem background_failure_clears_watch :
    (checkProcessingOrder (some "ord-1") (fetchOrderById FetchOutcome.failed)
        false).storedId = none ∧
    ¬ (checkProcessingOrder (some "ord-1") (fetchOrderById FetchOutcome.failed)
        false).storedId = some "ord-1" := by
  decide

/-- C9 (amended): a fetch failure during the dialog's background poll is
swallowed — the state, and with it the last good rendered record, is
unchanged and the next tick retries — but the periodic watched-order check
cannot distinguish a failed fetch from not-found and clears the persisted
identifier and banner. -/
theorem background_failure_behavior (st : DialogState) (id : String) (open0 : Bool) :
    loadOrder st false (fetchOrderById FetchOutcome.failed) = st ∧
    (checkProcessingOrder (some id) (fetchOrderById FetchOutcome.failed)
        open0).storedId = none ∧
    (checkProcessingOrder (some id) (fetchOrderById FetchOutcome.failed)
        open0).processingOrderId = none ∧
    (checkProcessingOrder (some id) (fetchOrderById FetchOutcome.failed)
        open0).isOrderModalOpen = open0 :=
  ⟨rfl, rfl, rfl, rfl⟩

/-- The aggregation key ignores the quantity field. -/
theorem aggKey_set_quantity (it : CartItem) (n : Nat) :
    aggKey { it with quantity := n } = aggKey it := rfl

/-- Appending an item with a different key changes no other key's group. -/
theorem aggGroup_append_ne (pre : List CartItem) (it : CartItem) (k : String)
    (hne : ¬ aggKey it = k) :
    aggGroup (pre ++ [it]) k = aggGroup pre k := by
  unfold aggGroup
  have hf : (pre ++ [it]).find? (fun x => decide (aggKey x = k)) =
      pre.find? (fun x => decide (aggKey x = k)) := by
    rw [List.find?_append]
    simp [hne]
  have hflt : (pre ++ [it]).filter (fun x => decide (aggKey x = k)) =
      pre.filter (fun x => decide (aggKey x = k)) := by
    simp [List.filter_append, hne]
  rw [hf, hflt]

/-- Filtering by key commutes with projecting values out of a key-faithful
association list. -/
theorem filter_map_snd_keyed :
    ∀ (acc : List (String × CartItem)), (∀ p ∈ acc, p.1 = aggKey p.2) →
      ∀ k : String,
        (acc.map Prod.snd).filter (fun x => decide (aggKey x = k)) =
          (acc.filter (fun p => decide (p.1 = k))).map Prod.snd := by
  intro acc
  induction acc with
  | nil => intro _ k; rfl
  | cons p ps ih =>
    intro h k
    have hp : p.1 = aggKey p.2 := h p (List.mem_cons_self p ps)
    have ihs := ih (fun q hq => h q (List.mem_cons_of_mem _ hq)) k
    by_cases hk : aggKey p.2 = k <;>
      simp [List.filter_cons, hp, hk, ihs]

/-- Filtering by key commutes with the quantity-bumping map of the update
branch of `aggStep`, which preserves every entry's key. -/
theorem filter_map_bump (key : String) (qty : Nat) :
    ∀ (acc : List (String × CartItem)) (k : String),
      (acc.map (fun p =>
        if p.1 = key then (p.1, { p.2 with quantity := p.2.quantity + qty }) else p)).filter
          (fun p => decide (p.1 = k)) =
      (acc.filter (fun p => decide (p.1 = k))).map (fun p =>
        if p.1 = key then (p.1, { p.2 with quantity := p.2.quantity + qty }) else p) := by
  intro acc
  induction acc with
  | nil => intro k; rfl
  | cons p ps ih =>
    intro k
    by_cases hpk : p.1 = key
    · subst hpk
      by_cases hk : p.1 = k
      · subst hk
        simp [List.filter_cons, ih p.1]
      · simp [List.filter_cons, hk, ih k]
    · by_cases hk : p.1 = k
      · subst hk
        simp [List.filter_cons, hpk, ih p.1]
      · simp [List.filter_cons, hpk, hk, ih k]

/-- Invariant of the `aggregateOrderItems` fold: the accumulator is a
key-faithful association list whose group at every key `k` is exactly
`aggGroup` of the items processed so far. -/
theorem aggFold_spec :
    ∀ (items : List CartItem) (acc : List (String × CartItem)) (pre : List CartItem),
      (∀ p ∈ acc, p.1 = aggKey p.2) →
      (∀ k, (acc.filter (fun p => decide (p.1 = k))).map Prod.snd = aggGroup pre k) →
      (∀ p ∈ items.foldl aggStep acc, p.1 = aggKey p.2) ∧
      (∀ k, ((items.foldl aggStep acc).filter (fun p => decide (p.1 = k))).map Prod.snd =
        aggGroup (pre ++ items) k) := by
  intro items
  induction items with
  | nil =>
    intro acc pre h1 h2
    exact ⟨h1, fun k => by simpa using h2 k⟩
  | cons it its ih =>
    intro acc pre h1 h2
    have hstep_eq : aggStep acc it =
        if (acc.find? (fun p => decide (p.1 = aggKey it))).isSome then
          acc.map (fun p =>
            if p.1 = aggKey it then
              (p.1, { p.2 with quantity := p.2.quantity + it.quantity })
            else p)
        else acc ++ [(aggKey it, { it with quantity := it.quantity })] := rfl
    have hstep1 : ∀ p ∈ aggStep acc it, p.1 = aggKey p.2 := by
      intro p hp
      rw [hstep_eq] at hp
      by_cases hsome : (acc.find? (fun p => decide (p.1 = aggKey it))).isSome
      · rw [if_pos hsome] at hp
        obtain ⟨q, hq, hqe⟩ := List.mem_map.mp hp
        by_cases hqk : q.1 = aggKey it
        · rw [if_pos hqk] at hqe
          subst hqe
          simpa [aggKey_set_quantity] using h1 q hq
        · rw [if_neg hqk] at hqe
          subst hqe
          exact h1 q hq
      · rw [if_neg hsome] at hp
        rcases List.mem_append.mp hp with h | h
        · exact h1 p h
        · obtain rfl := List.mem_singleton.mp h
          exact (aggKey_set_quantity it it.quantity).symm
    have hstep2 : ∀ k,
        ((aggStep acc it).filter (fun p => decide (p.1 = k))).map Prod.snd =
          aggGroup (pre ++ [it]) k := by
      intro k
      rw [hstep_eq]
      by_cases hsome : (acc.find? (fun p => decide (p.1 = aggKey it))).isSome
      · rw [if_pos hsome, filter_map_bump (aggKey it) it.quantity acc k]
        by_cases hkk : aggKey it = k
        · -- the incoming item's key: the stored group gets its quantity bumped
          obtain ⟨q, hq, hqk⟩ := List.find?_isSome.mp hsome
          have hqk' : q.1 = aggKey it := of_decide_eq_true hqk
          cases hfind : pre.find? (fun x => decide (aggKey x = k)) with
          | none =>
            exfalso
            have hnil : (acc.filter (fun p => decide (p.1 = k))).map Prod.snd = [] := by
              rw [h2 k]
              unfold aggGroup
              rw [hfind]
            have : q ∈ acc.filter (fun p => decide (p.1 = k)) :=
              List.mem_filter.mpr ⟨hq, by simp [hqk', hkk]⟩
            rw [List.map_eq_nil_iff] at hnil
            rw [hnil] at this
            exact absurd this (List.not_mem_nil q)
          | some fst0 =>
            have hgroup : aggGroup pre k =
                [{ fst0 with
                    quantity :=
                      ((pre.filter (fun x => decide (aggKey x = k))).map
                        CartItem.quantity).sum }] := by
              unfold aggGroup
              rw [hfind]
            cases hacc : acc.filter (fun p => decide (p.1 = k)) with
            | nil =>
              exfalso
              have := h2 k
              rw [hacc, hgroup] at this
              exact absurd this.symm (List.cons_ne_nil _ _)
            | cons a rest =>
              have hmapped := h2 k
              rw [hacc, hgroup] at hmapped
              simp only [List.map_cons, List.cons.injEq] at hmapped
              obtain ⟨ha2, hrest⟩ := hmapped
              have hrest0 : rest = [] := by
                rw [List.map_eq_nil_iff] at hrest
                exact hrest
              have ha1 : a.1 = k := by
                have : a ∈ acc.filter (fun p => decide (p.1 = k)) := by
                  rw [hacc]; exact List.mem_cons_self a rest
                exact of_decide_eq_true (List.mem_filter.mp this).2
              subst hrest0
              have hRfind : (pre ++ [it]).find? (fun x => decide (aggKey x = k)) =
                  some fst0 := by
                rw [List.find?_append, hfind]
                rfl
              have hRfilter : (pre ++ [it]).filter (fun x => decide (aggKey x = k)) =
                  pre.filter (fun x => decide (aggKey x = k)) ++ [it] := by
                rw [List.filter_append]
                simp [hkk]
              have hcond : a.1 = aggKey it := ha1.trans hkk.symm
              unfold aggGroup
              rw [hRfind, hRfilter]
              simp [hacc, hcond, ha2, List.map_append, List.sum_append]
        · -- a different key: the bump map is the identity on this group
          have hid : (acc.filter (fun p => decide (p.1 = k))).map (fun p =>
              if p.1 = aggKey it then
                (p.1, { p.2 with quantity := p.2.quantity + it.quantity })
              else p) = acc.filter (fun p => decide (p.1 = k)) := by
            have := List.map_congr_left (l := acc.filter (fun p => decide (p.1 = k)))
              (f := fun p =>
                if p.1 = aggKey it then
                  (p.1, { p.2 with quantity := p.2.quantity + it.quantity })
                else p) (g := id) ?_
            · simpa using this
            · intro a ha
              have ha1 : a.1 = k := of_decide_eq_true (List.mem_filter.mp ha).2
              have : ¬ a.1 = aggKey it := by
                rw [ha1]
                intro hcontr
                exact hkk hcontr.symm
              simp [this]
          rw [hid, h2 k, aggGroup_append_ne pre it k hkk]
      · rw [if_neg hsome, List.filter_append]
        have hnone : acc.find? (fun p => decide (p.1 = aggKey it)) = none :=
          Option.not_isSome_iff_eq_none.mp hsome
        by_cases hkk : aggKey it = k
        · have haccnil : acc.filter (fun p => decide (p.1 = k)) = [] := by
            rw [List.filter_eq_nil_iff]
            intro q hq
            have := List.find?_eq_none.mp hnone q hq
            simp only [decide_eq_true_eq] at this ⊢
            rw [← hkk]
            exact this
          have hprenone : pre.find? (fun x => decide (aggKey x = k)) = none := by
            cases hfind : pre.find? (fun x => decide (aggKey x = k)) with
            | none => rfl
            | some fst0 =>
              exfalso
              have := h2 k
              rw [haccnil] at this
              unfold aggGroup at this
              rw [hfind] at this
              exact absurd this.symm (List.cons_ne_nil _ _)
          have hprenil : pre.filter (fun x => decide (aggKey x = k)) = [] := by
            rw [List.filter_eq_nil_iff]
            exact List.find?_eq_none.mp hprenone
          rw [haccnil]
          unfold aggGroup
          rw [List.find?_append, hprenone]
          have : ([it].find? (fun x => decide (aggKey x = k))) = some it := by
            simp [hkk]
          rw [List.filter_append, hprenil]
          simp [hkk]
        · have hpairnil :
              ([(aggKey it, { it with quantity := it.quantity })].filter
                (fun p => decide (p.1 = k))) = [] := by
            simp [hkk]
          rw [hpairnil, List.append_nil, h2 k, aggGroup_append_ne pre it k hkk]
    have hrec := ih (aggStep acc it) (pre ++ [it]) hstep1 hstep2
    refine ⟨?_, ?_⟩
    · intro p hp
      exact hrec.1 p (by simpa [List.foldl_cons] using hp)
    · intro k
      have := hrec.2 k
      rw [List.foldl_cons]
      rw [show pre ++ it :: its = (pre ++ [it]) ++ its by simp]
      exact this

/-- Folding further copies of an item onto its existing singleton group
accumulates the quantity. -/
theorem aggFold_replicate (it : CartItem) :
    ∀ (n m : Nat),
      (List.replicate n it).foldl aggStep [(aggKey it, { it with quantity := m })] =
        [(aggKey it, { it with quantity := m + n * it.quantity })] := by
  intro n
  induction n with
  | zero => intro m; simp
  | succ n ihn =>
    intro m
    have hstep : aggStep [(aggKey it, { it with quantity := m })] it =
        [(aggKey it, { it with quantity := m + it.quantity })] := by
      simp [aggStep]
    simp only [List.replicate_succ, List.foldl_cons]
    rw [hstep, ihn]
    have harith : m + it.quantity + n * it.quantity = m + (n + 1) * it.quantity := by ring
    rw [harith]

/-- C10 (amended): `aggregateOrderItems` collapses the `N` expanded
quantity-1 copies of a line item into the single item with quantity `N`
and otherwise identical fields, and in general its output carries, for
each `|`-joined key string, exactly one entry — the first input with that
key, at the summed quantity.  Items are therefore never merged when their
joined key strings differ; items differing in a field may still merge
when the joined encodings collide. -/
theorem aggregate_grouping (it : CartItem) (N : Nat) (hN : 1 ≤ N)
    (hq : it.quantity = 1) (items : List CartItem) (k : String) :
    aggregateOrderItems (List.replicate N it) = [{ it with quantity := N }] ∧
    (aggregateOrderItems items).filter (fun x => decide (aggKey x = k)) =
      aggGroup items k := by
  constructor
  · obtain ⟨n, rfl⟩ : ∃ n, N = n + 1 := ⟨N - 1, by omega⟩
    have h0 : aggStep [] it = [(aggKey it, { it with quantity := it.quantity })] := by
      simp [aggStep]
    unfold aggregateOrderItems
    rw [List.replicate_succ]
    simp only [List.isEmpty_cons, Bool.false_eq_true, if_false]
    rw [List.foldl_cons, h0, aggFold_replicate it n it.quantity]
    simp [hq, Nat.mul_one, Nat.add_comm]
  · cases items with
    | nil => rfl
    | cons x xs =>
      obtain ⟨hkeyed, hgroups⟩ :=
        aggFold_spec (x :: xs) [] [] (by simp) (fun k' => by simp [aggGroup])
      unfold aggregateOrderItems
      simp only [List.isEmpty_cons, Bool.false_eq_true, if_false]
      rw [filter_map_snd_keyed ((x :: xs).foldl aggStep []) hkeyed k]
      simpa using hgroups k

/-- Counterexample to C10 as stated: these two items differ in both name
and variation, yet their `|`-joined keys collide
(`"a|b" / "c"` versus `"a" / "b|c"`), so `aggregateOrderItems` merges them
into one quantity-2 entry. -/
theorem aggregate_merges_distinct_fields :
    collideA.name ≠ collideB.name ∧
    collideA.selectedVariation ≠ collideB.selectedVariation ∧
    aggregateOrderItems [collideA, collideB] = [{ collideA with quantity := 2 }] := by
  decide

/-- Witness for the amended C10 at concrete inputs: three expanded copies
of a ₱100 quantity-1 line item aggregate back to one quantity-3 item, and
the singleton grouping matches `aggGroup`. -/
theorem aggregate_grouping_witness :
    aggregateOrderItems (List.replicate 3 itemLine100) =
      [{ itemLine100 with quantity := 3 }] ∧
    (aggregateOrderItems [itemLine100]).filter
        (fun x => decide (aggKey x = aggKey itemLine100)) =
      aggGroup [itemLine100] (aggKey itemLine100) :=
  ⟨(aggregate_grouping itemLine100 3 (by decide) rfl [itemLine100]
      (aggKey itemLine100)).1,
   (aggregate_grouping itemLine100 3 (by decide) rfl [itemLine100]
      (aggKey itemLine100)).2⟩
